import Mathlib

/-!
Verification of the protoc-gen-solidity code generator core.

The definitions below are a shallow embedding of the TypeScript sources:
`util/names.ts`, `generator/type-map.ts`, `generator/field.ts` (field-level
codegen) and `plugin.ts` (descriptor walking and the plugin boundary).
JavaScript 32-bit bitwise semantics (`<<`, `|`, `>>`, `&` on Numbers) are
modelled explicitly, since `fieldTag` relies on them.
-/

namespace ProtocGenSol

/-! JavaScript 32-bit integer semantics.  A JS bitwise operator converts its
operands with ToInt32 / ToUint32 (reduction mod 2^32, then reinterpretation
of the bit pattern), operates on 32-bit patterns, and reinterprets the
result as a signed 32-bit integer. -/

/-- Bit pattern (as a natural number below 2^32) of a JS number converted by
ToUint32: reduction of the integer modulo 2^32. -/
def toUInt32 (i : Int) : Nat := (i % 4294967296).toNat

/-- Reinterpret a 32-bit pattern as a signed 32-bit integer (two's complement). -/
def ofUInt32 (u : Nat) : Int :=
  if u < 2147483648 then (u : Int) else (u : Int) - 4294967296

/-- ToInt32 conversion of a JS number. -/
def toInt32 (i : Int) : Int := ofUInt32 (toUInt32 i)

/-- JS `a << 3`: shift the 32-bit pattern left by three, keep the low 32 bits,
reinterpret as signed. -/
def jsShl3 (a : Int) : Int := ofUInt32 (toUInt32 a * 8 % 4294967296)

/-- JS `a | b` on 32-bit patterns. -/
def jsOr (a b : Int) : Int := ofUInt32 (toUInt32 a ||| toUInt32 b)

/-- JS `a & b` on 32-bit patterns. -/
def jsAnd (a b : Int) : Int := ofUInt32 (toUInt32 a &&& toUInt32 b)

/-- JS `a >> 3` (sign-propagating shift): arithmetic shift of the signed
32-bit value, i.e. floor division by 8. -/
def jsSar3 (a : Int) : Int := (toInt32 a).fdiv 8

/-- JS `Number.prototype.toString(16)` for a non-negative integer
(lowercase hex digits). -/
def natToHex (n : Nat) : String := String.mk (Nat.toDigits 16 n)

/-- JS `Number.prototype.toString(16)` for any integer. -/
def intToHex (i : Int) : String :=
  if i < 0 then "-" ++ natToHex (-i).toNat else natToHex i.toNat

/-! Embedding of `util/names.ts`. -/

/-- Scanner for the regex replace `name.replace(/_([a-z])/g, (_, c) =>
c.toUpperCase())`: a global regex replace scans left to right; at an
underscore followed by a lowercase ASCII letter both characters are consumed
and replaced by the uppercased letter, otherwise one character is copied. -/
def snakeToCamelChars : List Char → List Char
  | [] => []
  | [c] => [c]
  | a :: b :: rest =>
    if a == '_' && b.isLower then b.toUpper :: snakeToCamelChars rest
    else a :: snakeToCamelChars (b :: rest)

/-- Embedding of `snakeToCamel` from `util/names.ts`. -/
def snakeToCamel (s : String) : String := String.mk (snakeToCamelChars s.data)

/-- Embedding of `codecLibName` from `util/names.ts`. -/
def codecLibName (messageName : String) : String := messageName ++ "Codec"

/-! Embedding of `generator/type-map.ts`. -/

/-- Wire type constant `WireType.Varint`. -/
def WireVarint : Int := 0

/-- Wire type constant `WireType.Fixed64`. -/
def WireFixed64 : Int := 1

/-- Wire type constant `WireType.LengthDelimited`. -/
def WireLengthDelimited : Int := 2

/-- Wire type constant `WireType.Fixed32`. -/
def WireFixed32 : Int := 5

/-- Mapping entry: protobuf field type → Solidity type + wire metadata
(`SolTypeInfo` in `type-map.ts`). -/
structure SolTypeInfo where
  solType : String
  wireType : Int
  encodeFunc : String
  decodeFunc : String
  defaultValue : String
deriving Repr, DecidableEq

/-- Embedding of the `PROTO_TYPE_MAP` record: protobuf
`FieldDescriptorProto.Type` enum value → Solidity metadata, `none` where the
record has no key (0, 10 = group, and everything outside 1–18). -/
def PROTO_TYPE_MAP : Nat → Option SolTypeInfo
  | 1 => some ⟨"int64", WireFixed64, "_encode_fixed64", "_decode_fixed64", "0"⟩
  | 2 => some ⟨"int32", WireFixed32, "_encode_fixed32", "_decode_fixed32", "0"⟩
  | 3 => some ⟨"int64", WireVarint, "_encode_varint", "_decode_varint", "0"⟩
  | 4 => some ⟨"uint64", WireVarint, "_encode_varint", "_decode_varint", "0"⟩
  | 5 => some ⟨"int32", WireVarint, "_encode_varint", "_decode_varint", "0"⟩
  | 6 => some ⟨"uint64", WireFixed64, "_encode_fixed64", "_decode_fixed64", "0"⟩
  | 7 => some ⟨"uint32", WireFixed32, "_encode_fixed32", "_decode_fixed32", "0"⟩
  | 8 => some ⟨"bool", WireVarint, "_encode_bool", "_decode_bool", "false"⟩
  | 9 => some ⟨"string", WireLengthDelimited, "_encode_string", "_decode_string", "\"\""⟩
  | 11 => some ⟨"", WireLengthDelimited, "", "", ""⟩
  | 12 => some ⟨"bytes", WireLengthDelimited, "_encode_bytes", "_decode_bytes", "\"\""⟩
  | 13 => some ⟨"uint32", WireVarint, "_encode_varint", "_decode_varint", "0"⟩
  | 14 => some ⟨"uint64", WireVarint, "_encode_varint", "_decode_varint", "0"⟩
  | 15 => some ⟨"int32", WireFixed32, "_encode_sfixed32", "_decode_sfixed32", "0"⟩
  | 16 => some ⟨"int64", WireFixed64, "_encode_sfixed64", "_decode_sfixed64", "0"⟩
  | 17 => some ⟨"int32", WireVarint, "_encode_zigzag32", "_decode_zigzag32", "0"⟩
  | 18 => some ⟨"int64", WireVarint, "_encode_zigzag64", "_decode_zigzag64", "0"⟩
  | _ => none

/-- JS truthiness of an optional string: `undefined` and `""` are falsy. -/
def jsTruthy : Option String → Bool
  | none => false
  | some s => s != ""

/-- One step of `typeName.replace(/^\./, "")`: remove a single leading dot. -/
def stripDotChars : List Char → List Char
  | [] => []
  | c :: rest => if c == '.' then rest else c :: rest

/-- JS `String.prototype.split(".")` on a character list: `""` splits to
`[""]`, and separators at either end produce empty segments. -/
def splitOnDotChars : List Char → List (List Char)
  | [] => [[]]
  | c :: rest =>
    if c == '.' then [] :: splitOnDotChars rest
    else
      match splitOnDotChars rest with
      | [] => [[c]]
      | seg :: segs => (c :: seg) :: segs

/-- One step of `typeName.replace(/^\./, "")` at string level. -/
def stripLeadingDot (s : String) : String := String.mk (stripDotChars s.data)

/-- JS `parts[parts.length - 1]` after `split(".")`. -/
def lastSegment (s : String) : String :=
  String.mk ((splitOnDotChars s.data).getLastD [])

/-- Embedding of `resolveSolType` from `type-map.ts`.  The thrown
`Error("Unsupported protobuf field type: ...")` is modelled as `.error`. -/
def resolveSolType (fieldType : Nat) (typeName : Option String) : Except String String :=
  if fieldType == 11 && jsTruthy typeName then
    .ok (lastSegment (stripLeadingDot (typeName.getD "")))
  else
    match PROTO_TYPE_MAP fieldType with
    | some info => .ok info.solType
    | none => .error ("Unsupported protobuf field type: " ++ toString fieldType)

/-- Embedding of `fieldTag` from `type-map.ts`:
`(fieldNumber << 3) | wireType` under JS 32-bit bitwise semantics. -/
def fieldTag (fieldNumber wireType : Int) : Int :=
  jsOr (jsShl3 fieldNumber) wireType

/-! Embedding of `generator/field.ts`. -/

/-- Map-entry metadata carried by a synthetic map field
(`FieldInfo.mapEntry` in `field.ts`). -/
structure MapEntryInfo where
  keyType : Nat
  valueType : Nat
  valueTypeName : Option String := none
deriving Repr, DecidableEq

/-- Parsed field descriptor subset needed for codegen (`FieldInfo`). -/
structure FieldInfo where
  name : String
  number : Int
  type : Nat
  typeName : Option String := none
  label : Nat
  oneofIndex : Option Int := none
  mapEntry : Option MapEntryInfo := none
deriving Repr, DecidableEq

/-- Embedding of `isRepeated`: label 3 marks a repeated field. -/
def isRepeated (field : FieldInfo) : Bool := field.label == 3

/-- Embedding of `isMessage`: type code 11 marks a message-typed field. -/
def isMessage (field : FieldInfo) : Bool := field.type == 11

/-- Embedding of `genStructMember`.  The unguarded `resolveSolType` call can
throw, so the result is an `Except`. -/
def genStructMember (field : FieldInfo) : Except String String := do
  let solName := snakeToCamel field.name
  let solType ← resolveSolType field.type field.typeName
  match field.mapEntry with
  | some me => do
      let keyType ← resolveSolType me.keyType none
      let valType ← resolveSolType me.valueType me.valueTypeName
      return String.intercalate "\n" [
        "    " ++ keyType ++ "[] " ++ solName ++ "_keys;",
        "    " ++ valType ++ "[] " ++ solName ++ "_values;"]
  | none =>
      let solType := if isRepeated field then solType ++ "[]" else solType
      return "    " ++ solType ++ " " ++ solName ++ ";"

/-- Embedding of `genScalarEncode`. -/
def genScalarEncode (solName : String) (typeInfo : SolTypeInfo) (tagHex : String) : String :=
  String.intercalate "\n" [
    "    buf = abi.encodePacked(buf, ProtobufRuntime._encode_key(" ++ tagHex ++ "));",
    "    buf = abi.encodePacked(buf, ProtobufRuntime." ++ typeInfo.encodeFunc
      ++ "(msg." ++ solName ++ "));"]

/-- Embedding of `genMessageEncode`. -/
def genMessageEncode (field : FieldInfo) (solName tagHex : String) : Except String String := do
  let sol ← resolveSolType field.type field.typeName
  let nestedCodec := codecLibName sol
  return String.intercalate "\n" [
    "    buf = abi.encodePacked(buf, ProtobufRuntime._encode_key(" ++ tagHex ++ "));",
    "    bytes memory " ++ solName ++ "_encoded = " ++ nestedCodec ++ ".encode(msg."
      ++ solName ++ ");",
    "    buf = abi.encodePacked(buf, ProtobufRuntime._encode_varint(uint64("
      ++ solName ++ "_encoded.length)));",
    "    buf = abi.encodePacked(buf, " ++ solName ++ "_encoded);"]

/-- Embedding of `genRepeatedEncode`. -/
def genRepeatedEncode (field : FieldInfo) (solName : String) (typeInfo : SolTypeInfo)
    (tagHex : String) : Except String String := do
  let loopVar := "_i_" ++ solName
  let head := [
    "    for (uint256 " ++ loopVar ++ " = 0; " ++ loopVar ++ " < msg." ++ solName
      ++ ".length; " ++ loopVar ++ "++) \x7b",
    "      buf = abi.encodePacked(buf, ProtobufRuntime._encode_key(" ++ tagHex ++ "));"]
  let mid ←
    if isMessage field then do
      let sol ← resolveSolType field.type field.typeName
      let nestedCodec := codecLibName sol
      pure [
        "      bytes memory _elem = " ++ nestedCodec ++ ".encode(msg." ++ solName
          ++ "[" ++ loopVar ++ "]);",
        "      buf = abi.encodePacked(buf, ProtobufRuntime._encode_varint(uint64(_elem.length)));",
        "      buf = abi.encodePacked(buf, _elem);"]
    else
      pure [
        "      buf = abi.encodePacked(buf, ProtobufRuntime." ++ typeInfo.encodeFunc
          ++ "(msg." ++ solName ++ "[" ++ loopVar ++ "]));"]
  return String.intercalate "\n" (head ++ mid ++ ["    \x7d"])

/-- Embedding of `genMapEncode`.  The TS non-null assertion `field.mapEntry!`
followed by a property access, and the unchecked `keyInfo.wireType` /
`valInfo.wireType` accesses, throw a `TypeError` when absent; those paths are
modelled as `.error`. -/
def genMapEncode (field : FieldInfo) (tagHex : String) : Except String String := do
  let solName := snakeToCamel field.name
  let loopVar := "_i_" ++ solName
  match field.mapEntry with
  | none => .error "TypeError: field.mapEntry is undefined"
  | some me =>
    match PROTO_TYPE_MAP me.keyType with
    | none => .error "TypeError: keyInfo is undefined"
    | some keyInfo => do
      let head := [
        "    for (uint256 " ++ loopVar ++ " = 0; " ++ loopVar ++ " < msg." ++ solName
          ++ "_keys.length; " ++ loopVar ++ "++) \x7b",
        "      bytes memory _entry = \"\";",
        "      _entry = abi.encodePacked(_entry, ProtobufRuntime._encode_key("
          ++ toString (fieldTag 1 keyInfo.wireType) ++ "));",
        "      _entry = abi.encodePacked(_entry, ProtobufRuntime." ++ keyInfo.encodeFunc
          ++ "(msg." ++ solName ++ "_keys[" ++ loopVar ++ "]));"]
      let mid ←
        if me.valueType == 11 then do
          let sol ← resolveSolType me.valueType me.valueTypeName
          let nestedCodec := codecLibName sol
          pure [
            "      bytes memory _val = " ++ nestedCodec ++ ".encode(msg." ++ solName
              ++ "_values[" ++ loopVar ++ "]);",
            "      _entry = abi.encodePacked(_entry, ProtobufRuntime._encode_key("
              ++ toString (fieldTag 2 WireLengthDelimited) ++ "));",
            "      _entry = abi.encodePacked(_entry, ProtobufRuntime._encode_varint(uint64(_val.length)));",
            "      _entry = abi.encodePacked(_entry, _val);"]
        else
          match PROTO_TYPE_MAP me.valueType with
          | none => .error "TypeError: valInfo is undefined"
          | some valInfo =>
            pure [
              "      _entry = abi.encodePacked(_entry, ProtobufRuntime._encode_key("
                ++ toString (fieldTag 2 valInfo.wireType) ++ "));",
              "      _entry = abi.encodePacked(_entry, ProtobufRuntime." ++ valInfo.encodeFunc
                ++ "(msg." ++ solName ++ "_values[" ++ loopVar ++ "]));"]
      let tail := [
        "      buf = abi.encodePacked(buf, ProtobufRuntime._encode_key(" ++ tagHex ++ "));",
        "      buf = abi.encodePacked(buf, ProtobufRuntime._encode_varint(uint64(_entry.length)));",
        "      buf = abi.encodePacked(buf, _entry);",
        "    \x7d"]
      return String.intercalate "\n" (head ++ mid ++ tail)

/-- Embedding of `genFieldEncode`: dispatch on field shape; an unsupported
field type yields the placeholder marker comment (the `log.warn` side effect
has no bearing on the returned text). -/
def genFieldEncode (field : FieldInfo) : Except String String := do
  let solName := snakeToCamel field.name
  match PROTO_TYPE_MAP field.type with
  | none =>
      return "    // TODO: unsupported field type " ++ toString field.type
        ++ " for " ++ field.name
  | some typeInfo =>
    let tag := fieldTag field.number
      (if field.mapEntry.isSome then WireLengthDelimited else typeInfo.wireType)
    let tagHex := "0x" ++ intToHex tag
    if field.mapEntry.isSome then
      genMapEncode field tagHex
    else if isRepeated field then
      genRepeatedEncode field solName typeInfo tagHex
    else if isMessage field then
      genMessageEncode field solName tagHex
    else
      return genScalarEncode solName typeInfo tagHex

/-- Embedding of `genScalarDecode`. -/
def genScalarDecode (solName : String) (typeInfo : SolTypeInfo) (tag : Int) : String :=
  String.intercalate "\n" [
    "        case " ++ toString tag ++ ":",
    "          (msg." ++ solName ++ ", pos) = ProtobufRuntime." ++ typeInfo.decodeFunc
      ++ "(data, pos);",
    "          break;"]

/-- Embedding of `genMessageDecode`. -/
def genMessageDecode (field : FieldInfo) (solName : String) (tag : Int) :
    Except String String := do
  let sol ← resolveSolType field.type field.typeName
  let nestedCodec := codecLibName sol
  return String.intercalate "\n" [
    "        case " ++ toString tag ++ ":",
    "          \x7b",
    "            uint64 _len;",
    "            (_len, pos) = ProtobufRuntime._decode_varint(data, pos);",
    "            bytes memory _sub = ProtobufRuntime._slice(data, pos, pos + uint256(_len));",
    "            msg." ++ solName ++ " = " ++ nestedCodec ++ ".decode(_sub);",
    "            pos += uint256(_len);",
    "          \x7d",
    "          break;"]

/-- Embedding of `genRepeatedDecode`. -/
def genRepeatedDecode (field : FieldInfo) (solName : String) (typeInfo : SolTypeInfo)
    (tag : Int) : Except String String := do
  if isMessage field then do
    let sol ← resolveSolType field.type field.typeName
    let nestedCodec := codecLibName sol
    return String.intercalate "\n" [
      "        case " ++ toString tag ++ ":",
      "          \x7b",
      "            uint64 _len;",
      "            (_len, pos) = ProtobufRuntime._decode_varint(data, pos);",
      "            bytes memory _sub = ProtobufRuntime._slice(data, pos, pos + uint256(_len));",
      "            msg." ++ solName ++ ".push(" ++ nestedCodec ++ ".decode(_sub));",
      "            pos += uint256(_len);",
      "          \x7d",
      "          break;"]
  else do
    let sol ← resolveSolType field.type field.typeName
    return String.intercalate "\n" [
      "        case " ++ toString tag ++ ":",
      "          \x7b",
      "            " ++ sol ++ " _elem;",
      "            (_elem, pos) = ProtobufRuntime." ++ typeInfo.decodeFunc ++ "(data, pos);",
      "            msg." ++ solName ++ ".push(_elem);",
      "          \x7d",
      "          break;"]

/-- Embedding of `genMapDecode`.  As in `genMapEncode`, the TS non-null
assertion and the unchecked table accesses are modelled as `.error`. -/
def genMapDecode (field : FieldInfo) (solName : String) (tag : Int) :
    Except String String := do
  match field.mapEntry with
  | none => .error "TypeError: field.mapEntry is undefined"
  | some me =>
    match PROTO_TYPE_MAP me.keyType with
    | none => .error "TypeError: keyInfo is undefined"
    | some keyInfo => do
      let keySol ← resolveSolType me.keyType none
      let valSol ← resolveSolType me.valueType me.valueTypeName
      let head := [
        "        case " ++ toString tag ++ ":",
        "          \x7b",
        "            uint64 _entryLen;",
        "            (_entryLen, pos) = ProtobufRuntime._decode_varint(data, pos);",
        "            uint256 _entryEnd = pos + uint256(_entryLen);",
        "            " ++ keySol ++ " _key;",
        "            " ++ valSol ++ " _val;",
        "            while (pos < _entryEnd) \x7b",
        "              uint64 _entryTag;",
        "              (_entryTag, pos) = ProtobufRuntime._decode_key(data, pos);",
        "              if (_entryTag == " ++ toString (fieldTag 1 keyInfo.wireType)
          ++ ") \x7b",
        "                (_key, pos) = ProtobufRuntime." ++ keyInfo.decodeFunc
          ++ "(data, pos);"]
      let mid ←
        if me.valueType == 11 then do
          let sol ← resolveSolType me.valueType me.valueTypeName
          let nestedCodec := codecLibName sol
          pure [
            "              \x7d else if (_entryTag == "
              ++ toString (fieldTag 2 WireLengthDelimited) ++ ") \x7b",
            "                uint64 _vLen;",
            "                (_vLen, pos) = ProtobufRuntime._decode_varint(data, pos);",
            "                bytes memory _vSub = ProtobufRuntime._slice(data, pos, pos + uint256(_vLen));",
            "                _val = " ++ nestedCodec ++ ".decode(_vSub);",
            "                pos += uint256(_vLen);"]
        else
          match PROTO_TYPE_MAP me.valueType with
          | none => .error "TypeError: valInfo is undefined"
          | some valInfo =>
            pure [
              "              \x7d else if (_entryTag == "
                ++ toString (fieldTag 2 valInfo.wireType) ++ ") \x7b",
              "                (_val, pos) = ProtobufRuntime." ++ valInfo.decodeFunc
                ++ "(data, pos);"]
      let tail := [
        "              \x7d else \x7b",
        "                revert(\"Unknown map entry tag\");",
        "              \x7d",
        "            \x7d",
        "            msg." ++ solName ++ "_keys.push(_key);",
        "            msg." ++ solName ++ "_values.push(_val);",
        "          \x7d",
        "          break;"]
      return String.intercalate "\n" (head ++ mid ++ tail)

/-- Embedding of `genFieldDecode`: one dispatch case per field. -/
def genFieldDecode (field : FieldInfo) : Except String String := do
  let solName := snakeToCamel field.name
  match PROTO_TYPE_MAP field.type with
  | none =>
      return "      // TODO: unsupported field type " ++ toString field.type
        ++ " for " ++ field.name
  | some typeInfo =>
    let tag := fieldTag field.number
      (if field.mapEntry.isSome then WireLengthDelimited else typeInfo.wireType)
    if field.mapEntry.isSome then
      genMapDecode field solName tag
    else if isRepeated field then
      genRepeatedDecode field solName typeInfo tag
    else if isMessage field then
      genMessageDecode field solName tag
    else
      return genScalarDecode solName typeInfo tag

/-! Embedding of `plugin.ts`: descriptor model construction and the plugin
boundary. -/

/-- Decoded `FieldDescriptorProto` as seen by `convertDescriptor`; optional
attributes may be absent (`undefined`). -/
structure RawField where
  name : Option String := none
  number : Option Int := none
  label : Option Nat := none
  type : Option Nat := none
  type_name : Option String := none
  oneof_index : Option Int := none
deriving Repr, DecidableEq

/-- Decoded `MessageOptions`. -/
structure RawMessageOptions where
  map_entry : Option Bool := none
deriving Repr, DecidableEq

mutual

/-- Decoded `DescriptorProto` tree (name, fields, nested types, options).
The repeated `nested_type` member decodes to an array (`?? []` in the TS
normalizes an absent one to empty), modelled as `RawDescriptorList`. -/
inductive RawDescriptor where
  | mk (name : Option String) (fieldList : Option (List RawField))
       (nestedTypes : RawDescriptorList) (options : Option RawMessageOptions)

/-- A list of raw descriptors (mutual with `RawDescriptor`). -/
inductive RawDescriptorList where
  | nil
  | cons (head : RawDescriptor) (tail : RawDescriptorList)

end

mutual

/-- Internal message model built by `convertDescriptor`
(`MessageDescriptor` in `generator/index.ts`). -/
inductive MessageDescriptor where
  | mk (name : String) (fullName : String) (fields : List FieldInfo)
       (nestedMessages : MessageDescriptorList) (isMapEntry : Bool)

/-- A list of message descriptors (mutual with `MessageDescriptor`). -/
inductive MessageDescriptorList where
  | nil
  | cons (head : MessageDescriptor) (tail : MessageDescriptorList)

end

/-- Field list of a `MessageDescriptor`. -/
def MessageDescriptor.fields : MessageDescriptor → List FieldInfo
  | .mk _ _ fs _ _ => fs

/-- Nested messages of a `MessageDescriptor`. -/
def MessageDescriptor.nestedMessages : MessageDescriptor → MessageDescriptorList
  | .mk _ _ _ ns _ => ns

/-- Map-entry marker of a `MessageDescriptor`. -/
def MessageDescriptor.isMapEntry : MessageDescriptor → Bool
  | .mk _ _ _ _ b => b

mutual

/-- Embedding of `convertDescriptor` from `plugin.ts`: walk the raw
descriptor tree, building fully-qualified names by dot-joining; each field is
copied with its declared attributes.  The `mapEntry` member of `FieldInfo` is
not assigned by this function (the TS object literal omits it). -/
def convertDescriptor : RawDescriptor → String → MessageDescriptor
  | .mk nm fl nt opts, parentFqn =>
    let name := nm.getD ""
    let fullName := if parentFqn != "" then parentFqn ++ "." ++ name else name
    let isMapEntry := opts.bind RawMessageOptions.map_entry == some true
    let fields : List FieldInfo := (fl.getD []).map (fun f =>
      { name := f.name.getD "", number := f.number.getD 0, type := f.type.getD 0,
        typeName := f.type_name, label := f.label.getD 1,
        oneofIndex := f.oneof_index, mapEntry := none })
    .mk name fullName fields (convertDescriptorList nt fullName) isMapEntry
termination_by structural d => d

/-- The `(desc.nested_type ?? []).map(...)` recursion of `convertDescriptor`,
expressed as a mutually recursive list walk. -/
def convertDescriptorList : RawDescriptorList → String → MessageDescriptorList
  | .nil, _ => .nil
  | .cons d ds, fqn => .cons (convertDescriptor d fqn) (convertDescriptorList ds fqn)
termination_by structural l => l

end

/-- Decoded `FileDescriptorProto` subset used by `extractMessages`. -/
structure ProtoFileRaw where
  name : Option String := none
  package : Option String := none
  message_type : Option (List RawDescriptor) := none

/-- Embedding of `extractMessages` from `plugin.ts`. -/
def extractMessages (protoFile : ProtoFileRaw) (packageName : String) :
    List MessageDescriptor :=
  (protoFile.message_type.getD []).map (fun m => convertDescriptor m packageName)

mutual

/-- All fields of a message and, recursively, of its nested messages. -/
def MessageDescriptor.allFields : MessageDescriptor → List FieldInfo
  | .mk _ _ fs ns _ => fs ++ MessageDescriptor.allFieldsList ns
termination_by structural d => d

/-- Concatenated `allFields` of a list of messages. -/
def MessageDescriptor.allFieldsList : MessageDescriptorList → List FieldInfo
  | .nil => []
  | .cons m ms => MessageDescriptor.allFields m ++ MessageDescriptor.allFieldsList ms
termination_by structural l => l

end

/-- One output file (`{ name, content }` in `PluginResult`). -/
structure GenFile where
  name : String
  content : String
deriving Repr, DecidableEq

/-- Embedding of `PluginResult` from `plugin.ts`. -/
structure PluginResult where
  files : List GenFile
  error : Option String := none
deriving Repr, DecidableEq

/-- Accumulation loop of `processRequest`: the `files` array starts with the
runtime library already pushed; each proto file either is skipped (not
requested, or no messages), contributes one generated file, or throws —
a throw propagates out of the whole loop.  The outcome of decoding and
generating each file is abstracted as an `Option (Except ...)` parameter
(`generateSolFile`'s body is outside the modelled sources). -/
def genLoop : List GenFile → List (Option (Except String GenFile)) →
    Except String (List GenFile)
  | acc, [] => .ok acc
  | acc, none :: rest => genLoop acc rest
  | acc, some (.ok f) :: rest => genLoop (acc ++ [f]) rest
  | _, some (.error e) :: _ => .error e

/-- Embedding of `processRequest`: runtime file first, then the per-file
loop; any exception propagates to the caller. -/
def processRequest (runtime : GenFile)
    (perFile : List (Option (Except String GenFile))) : Except String PluginResult := do
  let files ← genLoop [runtime] perFile
  return { files := files, error := none }

/-- Embedding of `runPlugin`'s boundary: `processRequest` runs inside
`try/catch`; a caught exception becomes `{ files: [], error: message }`. -/
def runPlugin (runtime : GenFile)
    (perFile : List (Option (Except String GenFile))) : PluginResult :=
  match processRequest runtime perFile with
  | .ok r => r
  | .error msg => { files := [], error := some msg }

/-- First exception raised by the per-file outcomes, if any. -/
def firstError : List (Option (Except String GenFile)) → Option String
  | [] => none
  | none :: rest => firstError rest
  | some (.ok _) :: rest => firstError rest
  | some (.error e) :: _ => some e

/-- Files contributed by the successful per-file outcomes, in order. -/
def okFiles : List (Option (Except String GenFile)) → List GenFile
  | [] => []
  | none :: rest => okFiles rest
  | some (.ok f) :: rest => f :: okFiles rest
  | some (.error _) :: rest => okFiles rest

/-! Arithmetic facts about the JS 32-bit operations, used to evaluate
`fieldTag` symbolically on in-range inputs. -/

/-- ToUint32 is the identity on naturals below 2^32. -/
theorem toUInt32_natCast {a : Nat} (h : a < 4294967296) : toUInt32 (a : Int) = a := by
  unfold toUInt32
  omega

/-- Patterns below 2^31 reinterpret to themselves. -/
theorem ofUInt32_of_lt {u : Nat} (h : u < 2147483648) : ofUInt32 u = (u : Int) := by
  unfold ofUInt32
  rw [if_pos h]

/-- On field numbers below 2^28 and wire types below 8, `fieldTag` computes
the exact mathematical value `8 * n + w`: no 32-bit wrap occurs. -/
theorem fieldTag_eval {n w : Int} (h0 : 0 ≤ n) (h1 : n < 268435456)
    (hw0 : 0 ≤ w) (hw1 : w < 8) : fieldTag n w = 8 * n + w := by
  obtain ⟨a, rfl⟩ : ∃ a : Nat, n = (a : Int) := ⟨n.toNat, (Int.toNat_of_nonneg h0).symm⟩
  obtain ⟨b, rfl⟩ : ∃ b : Nat, w = (b : Int) := ⟨w.toNat, (Int.toNat_of_nonneg hw0).symm⟩
  have ha : a < 268435456 := by exact_mod_cast h1
  have hb : b < 8 := by exact_mod_cast hw1
  have hshl : jsShl3 (a : Int) = ((a * 8 : Nat) : Int) := by
    unfold jsShl3
    rw [toUInt32_natCast (by omega), Nat.mod_eq_of_lt (by omega),
      ofUInt32_of_lt (by omega)]
  have hlor : a * 8 ||| b = 8 * a + b := by
    have h8 : (2 : Nat) ^ 3 = 8 := by norm_num
    calc a * 8 ||| b = 2 ^ 3 * a ||| b := by rw [h8, Nat.mul_comm]
      _ = 2 ^ 3 * a + b := (Nat.mul_add_lt_is_or (by omega) a).symm
      _ = 8 * a + b := by rw [h8]
  unfold fieldTag jsOr
  rw [hshl, toUInt32_natCast (by omega), toUInt32_natCast (by omega), hlor,
    ofUInt32_of_lt (by omega)]
  push_cast
  ring

/-- JS `t >> 3` on a non-negative 32-bit value is division by 8. -/
theorem jsSar3_of_lt {t : Int} (h0 : 0 ≤ t) (h1 : t < 2147483648) :
    jsSar3 t = t / 8 := by
  unfold jsSar3 toInt32
  have hu : toUInt32 t = t.toNat := by unfold toUInt32; omega
  rw [hu, ofUInt32_of_lt (by omega), Int.toNat_of_nonneg h0,
    Int.fdiv_eq_ediv _ (by norm_num)]

/-- JS `t & 7` on a non-negative 32-bit value is reduction mod 8. -/
theorem jsAnd7_of_lt {t : Int} (h0 : 0 ≤ t) (h1 : t < 2147483648) :
    jsAnd t 7 = t % 8 := by
  unfold jsAnd
  have hu : toUInt32 t = t.toNat := by unfold toUInt32; omega
  have h7 : toUInt32 7 = 7 := by unfold toUInt32; omega
  have hand : t.toNat &&& 7 = t.toNat % 8 := by
    have := Nat.and_pow_two_sub_one_eq_mod t.toNat 3
    norm_num at this
    exact this
  rw [hu, h7, hand, ofUInt32_of_lt (by omega)]
  omega

/-! Claim C1. -/

/-- C1 counterexample: at the largest protobuf-supported field number
536870911 = 2^29 − 1 (wire category 0), JS 32-bit semantics make
`fieldTag` wrap: the tag is −8 rather than `(n << 3) | c` = 8·n, and
decomposing with `tag >> 3` yields −1, not the original field number — so
the round-trip fails inside the supported range. -/
theorem fieldTag_wraps_at_max_field_number :
    fieldTag 536870911 0 = -8 ∧
    fieldTag 536870911 0 ≠ 8 * 536870911 ∧
    jsSar3 (fieldTag 536870911 0) = -1 ∧
    jsAnd (fieldTag 536870911 0) 7 = 0 := by
  decide

/-- C1 (amended): for every field number n with 1 ≤ n < 2^28 and every wire
category w ∈ {0, 1, 2, 5}, the tag built by `fieldTag` is exactly
`(n << 3) | w` = 8·n + w, and decomposing it with `tag >> 3` and `tag & 7`
yields the original pair (n, w).  For supported field numbers at or above
2^28 (protobuf permits up to 2^29 − 1) the JS 32-bit shift wraps and the
round-trip fails, as the counterexample shows. -/
theorem fieldTag_roundtrip_below_2pow28 (n w : Int) (h1 : 1 ≤ n)
    (h2 : n < 268435456) (hw : w = 0 ∨ w = 1 ∨ w = 2 ∨ w = 5) :
    fieldTag n w = 8 * n + w ∧ jsSar3 (fieldTag n w) = n ∧
      jsAnd (fieldTag n w) 7 = w := by
  have hw0 : 0 ≤ w := by rcases hw with h | h | h | h <;> omega
  have hw8 : w < 8 := by rcases hw with h | h | h | h <;> omega
  have he := fieldTag_eval (by omega) h2 hw0 hw8
  refine ⟨he, ?_, ?_⟩
  · rw [he, jsSar3_of_lt (by omega) (by omega)]
    omega
  · rw [he, jsAnd7_of_lt (by omega) (by omega)]
    omega

/-- C1 witness: the amended theorem applied at field number 3, wire
category 2. -/
theorem fieldTag_roundtrip_witness :
    fieldTag 3 2 = 8 * 3 + 2 ∧ jsSar3 (fieldTag 3 2) = 3 ∧
      jsAnd (fieldTag 3 2) 7 = 2 :=
  fieldTag_roundtrip_below_2pow28 3 2 (by norm_num) (by norm_num)
    (Or.inr (Or.inr (Or.inl rfl)))

/-! Shared characterizations of `resolveSolType`. -/

/-- When the type code has no table entry, `resolveSolType` throws. -/
theorem resolveSolType_of_none {t : Nat} (tn : Option String)
    (h : PROTO_TYPE_MAP t = none) :
    resolveSolType t tn = .error ("Unsupported protobuf field type: " ++ toString t) := by
  by_cases h11 : t = 11
  · subst h11
    simp [PROTO_TYPE_MAP] at h
  · simp [resolveSolType, h11, h]

/-- On a message type code with a truthy type name, `resolveSolType`
returns the last dot-separated segment. -/
theorem resolveSolType_message {s : String} (h : s ≠ "") :
    resolveSolType 11 (some s) = .ok (lastSegment (stripLeadingDot s)) := by
  simp [resolveSolType, jsTruthy, h]

/-- On a type code with a table entry, when the message-resolution branch is
not taken, `resolveSolType` returns the table's Solidity type. -/
theorem resolveSolType_of_some {t : Nat} {info : SolTypeInfo} (tn : Option String)
    (h : PROTO_TYPE_MAP t = some info) (h11 : t ≠ 11 ∨ jsTruthy tn = false) :
    resolveSolType t tn = .ok info.solType := by
  have hcond : (t == 11 && jsTruthy tn) = false := by
    rcases h11 with h11 | h11 <;> simp [h11]
  unfold resolveSolType
  rw [hcond]
  simp [h]

/-! Claim C9. -/

/-- C9: `resolveSolType` called with field type 11 (message) and an absent
or empty `typeName` returns the empty string — the table entry's placeholder
`solType` — and does not raise; the unsupported-type error is raised exactly
for type codes with no table entry. -/
theorem resolveSolType_error_reachability :
    resolveSolType 11 none = .ok "" ∧ resolveSolType 11 (some "") = .ok "" ∧
      ∀ (t : Nat) (tn : Option String),
        (∃ e, resolveSolType t tn = .error e) ↔ PROTO_TYPE_MAP t = none := by
  refine ⟨rfl, rfl, ?_⟩
  intro t tn
  constructor
  · rintro ⟨e, he⟩
    unfold resolveSolType at he
    split at he
    · exact absurd he (by simp)
    · split at he
      · exact absurd he (by simp)
      · assumption
  · intro h
    exact ⟨_, resolveSolType_of_none tn h⟩

/-! Claim C2. -/

/-- C2 counterexample: for a `group`-typed field (type code 10, no table
entry), struct-member emission does not degrade to a placeholder — the
unguarded `resolveSolType` call inside `genStructMember` throws, so
generating this field's struct member aborts instead of continuing. -/
theorem genStructMember_throws_on_group :
    genStructMember { name := "legacy_group", number := 3, type := 10, label := 1 } =
      .error "Unsupported protobuf field type: 10" := rfl

/-- C2 (amended): for a field whose proto type code has no entry in the
mapping table, the encode statements and the decode case degrade to the
placeholder marker comment without throwing, but struct-member emission
throws the unsupported-type error (its `resolveSolType` call is unguarded),
so field generation as a whole does not survive an unsupported type. -/
theorem unsupported_type_placeholder (f : FieldInfo)
    (h : PROTO_TYPE_MAP f.type = none) :
    genFieldEncode f =
        .ok ("    // TODO: unsupported field type " ++ toString f.type
          ++ " for " ++ f.name) ∧
      genFieldDecode f =
        .ok ("      // TODO: unsupported field type " ++ toString f.type
          ++ " for " ++ f.name) ∧
      genStructMember f =
        .error ("Unsupported protobuf field type: " ++ toString f.type) := by
  refine ⟨?_, ?_, ?_⟩
  · unfold genFieldEncode
    rw [h]
    rfl
  · unfold genFieldDecode
    rw [h]
    rfl
  · unfold genStructMember
    rw [resolveSolType_of_none f.typeName h]
    rfl

/-- C2 witness: the amended theorem applied to a concrete group field. -/
theorem unsupported_type_placeholder_witness :
    genFieldEncode { name := "old_group", number := 7, type := 10, label := 1 } =
        .ok "    // TODO: unsupported field type 10 for old_group" ∧
      genFieldDecode { name := "old_group", number := 7, type := 10, label := 1 } =
        .ok "      // TODO: unsupported field type 10 for old_group" ∧
      genStructMember { name := "old_group", number := 7, type := 10, label := 1 } =
        .error "Unsupported protobuf field type: 10" :=
  unsupported_type_placeholder _ rfl

/-! Claim C3. -/

/-- C3 counterexample: a message whose field references a nested message
marked `map_entry = true` that is malformed (it has no key/value fields at
all).  `convertDescriptor` succeeds anyway — no `MalformedSchema` failure
exists — and the referencing field's `mapEntry` metadata is left
unpopulated (`none`), contradicting both halves of the claim. -/
theorem convertDescriptor_ignores_map_entries :
    convertDescriptor
        (.mk (some "M")
          (some [{ name := some "foo", number := some 1, label := some 3,
                   type := some 11, type_name := some ".P.M.FooEntry" }])
          (.cons (.mk (some "FooEntry") (some []) .nil
                  (some { map_entry := some true })) .nil)
          none) "P"
      = .mk "M" "P.M"
          [{ name := "foo", number := 1, type := 11,
             typeName := some ".P.M.FooEntry", label := 3,
             oneofIndex := none, mapEntry := none }]
          (.cons (.mk "FooEntry" "P.M.FooEntry" [] .nil true) .nil) false := rfl

/-- Size-bounded induction engine for the amended C3 theorem: at every
nesting depth, constructed fields carry no `mapEntry` metadata. -/
theorem mapEntry_none_aux :
    ∀ (n : Nat),
      (∀ (d : RawDescriptor) (fqn : String), sizeOf d ≤ n →
        ∀ f ∈ (convertDescriptor d fqn).allFields, f.mapEntry = none) ∧
      (∀ (l : RawDescriptorList) (fqn : String), sizeOf l ≤ n →
        ∀ f ∈ MessageDescriptor.allFieldsList (convertDescriptorList l fqn),
          f.mapEntry = none) := by
  intro n
  induction n with
  | zero =>
    constructor
    · rintro ⟨nm, fl, nt, opts⟩ fqn hle
      simp at hle
    · intro l fqn hle f hf
      cases l with
      | nil => simp [convertDescriptorList, MessageDescriptor.allFieldsList] at hf
      | cons d ds =>
        simp at hle
  | succ n ih =>
    constructor
    · rintro ⟨nm, fl, nt, opts⟩ fqn hle f hf
      simp only [convertDescriptor, MessageDescriptor.allFields,
        List.mem_append] at hf
      rcases hf with hf | hf
      · rcases List.mem_map.mp hf with ⟨g, _, rfl⟩
        rfl
      · refine ih.2 nt _ ?_ f hf
        simp at hle
        omega
    · intro l fqn hle f hf
      cases l with
      | nil => simp [convertDescriptorList, MessageDescriptor.allFieldsList] at hf
      | cons d ds =>
        simp only [convertDescriptorList, MessageDescriptor.allFieldsList,
          List.mem_append] at hf
        simp at hle
        rcases hf with hf | hf
        · exact ih.1 d fqn (by omega) f hf
        · exact ih.2 ds fqn (by omega) f hf

/-- C3 (amended): descriptor-model construction copies every field with its
declared attributes but never populates `mapEntry` metadata — every field of
every constructed message (at any nesting depth) has `mapEntry = none` — and
construction is total: it never fails with `MalformedSchema`, whatever the
shape of a referenced map-entry message.  Map-entry resolution is not
performed at this stage. -/
theorem convertDescriptor_mapEntry_none (d : RawDescriptor) (fqn : String) :
    ∀ f ∈ (convertDescriptor d fqn).allFields, f.mapEntry = none :=
  (mapEntry_none_aux (sizeOf d)).1 d fqn (Nat.le_refl _)

/-- C3 witness: the amended theorem applied to the concrete malformed
map-entry input. -/
theorem convertDescriptor_mapEntry_none_witness :
    ({ name := "foo", number := 1, type := 11, typeName := some ".P.M.FooEntry",
        label := 3 } : FieldInfo).mapEntry = none :=
  convertDescriptor_mapEntry_none
    (.mk (some "M")
      (some [{ name := some "foo", number := some 1, label := some 3,
               type := some 11, type_name := some ".P.M.FooEntry" }])
      (.cons (.mk (some "FooEntry") (some []) .nil
              (some { map_entry := some true })) .nil)
      none) "P" _ (by decide)

/-! Claim C10. -/

/-- Claim-side condition: no underscore in the list is immediately followed
by a lowercase ASCII letter (i.e. every underscore is followed by a digit,
an uppercase letter, another underscore, a non-letter, or nothing). -/
def noUnderscoreLower : List Char → Bool
  | [] => true
  | [_] => true
  | a :: b :: rest => !(a == '_' && b.isLower) && noUnderscoreLower (b :: rest)

/-- C10: `snakeToCamel` uppercases a character exactly when it is a
lowercase ASCII letter immediately preceded by an underscore, removing that
underscore; when no underscore is followed by a lowercase letter the string
is returned unchanged (so underscores before digits, uppercase letters,
other underscores, or at the end survive); each underscore-lowercase pair
anywhere in the string is rewritten independently of its context; and the
claim's examples hold: "field_1" maps to itself and "a__b" to "a_B". -/
theorem snakeToCamel_spec :
    (∀ s : String, noUnderscoreLower s.data = true → snakeToCamel s = s) ∧
      (∀ (pre rest : List Char) (c : Char), c.isLower = true →
        snakeToCamelChars (pre ++ '_' :: c :: rest) =
          snakeToCamelChars pre ++ c.toUpper :: snakeToCamelChars rest) ∧
      snakeToCamel "field_1" = "field_1" ∧ snakeToCamel "a__b" = "a_B" := by
  have hid : ∀ (cs : List Char), noUnderscoreLower cs = true →
      snakeToCamelChars cs = cs := by
    intro cs
    induction cs using snakeToCamelChars.induct with
    | case1 => intro _; rfl
    | case2 c => intro _; rfl
    | case3 a b rest hcond ih =>
      intro h
      simp only [noUnderscoreLower, hcond, Bool.and_eq_true] at h
      exact absurd h.1 (by decide)
    | case4 a b rest hcond ih =>
      intro h
      simp only [noUnderscoreLower, Bool.and_eq_true] at h
      simp only [snakeToCamelChars, if_neg hcond]
      rw [ih h.2]
  refine ⟨?_, ?_, rfl, rfl⟩
  · intro s h
    have := hid s.data h
    unfold snakeToCamel
    rw [this]
  · intro pre rest c hc
    induction pre using snakeToCamelChars.induct with
    | case1 =>
      simp [snakeToCamelChars, hc]
    | case2 a =>
      simp [snakeToCamelChars, hc]
    | case3 a b rest' hcond ih =>
      simp only [List.cons_append, snakeToCamelChars, hcond, if_pos, List.append_eq]
      rw [ih]
    | case4 a b rest' hcond ih =>
      have hstep : (a :: b :: rest') ++ '_' :: c :: rest =
          a :: ((b :: rest') ++ '_' :: c :: rest) := by simp
      rw [hstep]
      have hne : ∀ (tail : List Char),
          snakeToCamelChars (a :: b :: tail) = a :: snakeToCamelChars (b :: tail) := by
        intro tail
        simp only [snakeToCamelChars, if_neg hcond]
      calc snakeToCamelChars (a :: (b :: rest') ++ '_' :: c :: rest)
          = a :: snakeToCamelChars ((b :: rest') ++ '_' :: c :: rest) := by
            rw [List.cons_append]
            exact hne (rest' ++ '_' :: c :: rest)
        _ = a :: (snakeToCamelChars (b :: rest') ++ c.toUpper :: snakeToCamelChars rest) := by
            rw [ih]
        _ = snakeToCamelChars (a :: b :: rest') ++ c.toUpper :: snakeToCamelChars rest := by
            rw [hne rest']
            simp

/-- C10 witness: the general clauses instantiated at concrete strings. -/
theorem snakeToCamel_spec_witness :
    snakeToCamel "const_2X" = "const_2X" ∧
      snakeToCamelChars ("user".data ++ '_' :: 'n' :: "ame".data) =
        snakeToCamelChars "user".data ++ 'n'.toUpper :: snakeToCamelChars "ame".data :=
  ⟨snakeToCamel_spec.1 "const_2X" (by decide),
    snakeToCamel_spec.2.1 "user".data "ame".data 'n' (by decide)⟩

/-! Computation rules for the `Except` monad used by the generator. -/

/-- Bind on a success value applies the continuation. -/
theorem except_bind_ok {α β : Type} (a : α) (f : α → Except String β) :
    Bind.bind (Except.ok a : Except String α) f = f a := rfl

/-- Bind on a thrown error propagates it. -/
theorem except_bind_error {α β : Type} (e : String) (f : α → Except String β) :
    Bind.bind (Except.error e : Except String α) f =
      (Except.error e : Except String β) := rfl

/-- Pure is `Except.ok`. -/
theorem except_pure_eq {α : Type} (a : α) :
    (Pure.pure a : Except String α) = Except.ok a := rfl

/-! Claim C6. -/

/-- Spec-side template for message-field encoding, following the spec's
words: write the field's tag — the mathematical tag 8·n + 2, i.e. always
length-delimited — invoke the referenced type's own codec into a temporary
buffer, write that buffer's length as a varint, then write the buffer. -/
def specMessageEncode (solName nestedCodec : String) (n : Int) : String :=
  String.intercalate "\n" [
    "    buf = abi.encodePacked(buf, ProtobufRuntime._encode_key("
      ++ ("0x" ++ intToHex (8 * n + 2)) ++ "));",
    "    bytes memory " ++ solName ++ "_encoded = " ++ nestedCodec
      ++ ".encode(msg." ++ solName ++ ");",
    "    buf = abi.encodePacked(buf, ProtobufRuntime._encode_varint(uint64("
      ++ solName ++ "_encoded.length)));",
    "    buf = abi.encodePacked(buf, " ++ solName ++ "_encoded);"]

/-- Removing the single leading dot never changes the last dot-separated
segment of a reference name. -/
theorem lastSegment_stripLeadingDot (s : String) :
    lastSegment (stripLeadingDot s) = lastSegment s := by
  rcases s with ⟨cs⟩
  cases cs with
  | nil => rfl
  | cons c rest =>
    by_cases hc : (c == '.') = true
    · simp only [lastSegment, stripLeadingDot, splitOnDotChars, stripDotChars,
        hc, if_pos]
      rw [List.getLastD_cons]
    · simp only [lastSegment, stripLeadingDot, stripDotChars, hc, if_neg,
        Bool.false_eq_true, if_false]

/-- C6: for every message-typed field (type code 11, non-repeated, non-map)
with a present, non-empty referenced type name, the generated encode writes
the field's tag — always length-delimited, the mathematical tag 8·n + 2 —
invokes the referenced type's own codec into a temporary buffer, writes the
buffer's varint length, then the buffer; the nested codec name is the last
dot-separated segment of the referenced type name plus the `Codec` suffix. -/
theorem genMessageEncode_delimited (nm : String) (num : Int) (lab : Nat)
    (oi : Option Int) (tn : String) (hlab : (lab == 3) = false) (htn : tn ≠ "")
    (h1 : 1 ≤ num) (h2 : num < 268435456) :
    genFieldEncode { name := nm, number := num, type := 11,
                     typeName := some tn, label := lab, oneofIndex := oi,
                     mapEntry := none } =
      .ok (specMessageEncode (snakeToCamel nm) (codecLibName (lastSegment tn)) num) := by
  have htag : fieldTag num WireLengthDelimited = 8 * num + 2 :=
    fieldTag_eval (by omega) h2 (by norm_num [WireLengthDelimited])
      (by norm_num [WireLengthDelimited])
  simp only [genFieldEncode, genMessageEncode, isRepeated, isMessage,
    PROTO_TYPE_MAP, Option.isSome, hlab, resolveSolType_message htn,
    lastSegment_stripLeadingDot, except_bind_ok, except_pure_eq,
    specMessageEncode, codecLibName, Bool.false_eq_true, beq_self_eq_true,
    if_true, if_false]
  rw [htag]

/-- C6 witness: a concrete message-typed field. -/
theorem genMessageEncode_delimited_witness :
    genFieldEncode { name := "owner_info", number := 5, type := 11,
                     typeName := some ".pkg.OwnerInfo", label := 1,
                     oneofIndex := none, mapEntry := none } =
      .ok (specMessageEncode (snakeToCamel "owner_info")
        (codecLibName (lastSegment ".pkg.OwnerInfo")) 5) :=
  genMessageEncode_delimited "owner_info" 5 1 none ".pkg.OwnerInfo" rfl
    (by decide) (by norm_num) (by norm_num)

/-- Every wire category stored in the mapping table lies in {0, 1, 2, 5},
in particular in [0, 8). -/
theorem wireType_bounds {t : Nat} {info : SolTypeInfo}
    (h : PROTO_TYPE_MAP t = some info) : 0 ≤ info.wireType ∧ info.wireType < 8 := by
  unfold PROTO_TYPE_MAP at h
  split at h <;> (cases h <;> decide)

/-! Claim C7. -/

/-- Spec-side template for the decode case of a repeated scalar/enum field:
one dispatch case keyed on the tag that appends (pushes) the decoded element
to the member sequence rather than overwriting it. -/
def specRepeatedDecodeScalar (solName : String) (ti : SolTypeInfo) (tag : Int) : String :=
  String.intercalate "\n" [
    "        case " ++ toString tag ++ ":",
    "          \x7b",
    "            " ++ ti.solType ++ " _elem;",
    "            (_elem, pos) = ProtobufRuntime." ++ ti.decodeFunc ++ "(data, pos);",
    "            msg." ++ solName ++ ".push(_elem);",
    "          \x7d",
    "          break;"]

/-- Spec-side template for the decode case of a repeated message field:
read the length-delimited sub-buffer, decode it with the referenced type's
codec, and append (push) the result to the member sequence. -/
def specRepeatedDecodeMsg (solName nestedCodec : String) (tag : Int) : String :=
  String.intercalate "\n" [
    "        case " ++ toString tag ++ ":",
    "          \x7b",
    "            uint64 _len;",
    "            (_len, pos) = ProtobufRuntime._decode_varint(data, pos);",
    "            bytes memory _sub = ProtobufRuntime._slice(data, pos, pos + uint256(_len));",
    "            msg." ++ solName ++ ".push(" ++ nestedCodec ++ ".decode(_sub));",
    "            pos += uint256(_len);",
    "          \x7d",
    "          break;"]

/-- C7: for every repeated non-map field, the generated decode case appends
(pushes) the decoded element to the member sequence rather than overwriting
it — both for scalar element types (first clause) and for message element
types (second clause) — so each occurrence of the field's tag appends one
element in order. -/
theorem genRepeatedDecode_appends :
    (∀ (nm : String) (num : Int) (ty lab : Nat) (tyn : Option String)
        (oi : Option Int) (ti : SolTypeInfo),
      (lab == 3) = true → ty ≠ 11 → PROTO_TYPE_MAP ty = some ti →
      1 ≤ num → num < 268435456 →
      genFieldDecode { name := nm, number := num, type := ty, typeName := tyn,
                       label := lab, oneofIndex := oi, mapEntry := none } =
        .ok (specRepeatedDecodeScalar (snakeToCamel nm) ti (8 * num + ti.wireType))) ∧
    (∀ (nm : String) (num : Int) (lab : Nat) (oi : Option Int) (tn : String),
      (lab == 3) = true → tn ≠ "" → 1 ≤ num → num < 268435456 →
      genFieldDecode { name := nm, number := num, type := 11,
                       typeName := some tn, label := lab, oneofIndex := oi,
                       mapEntry := none } =
        .ok (specRepeatedDecodeMsg (snakeToCamel nm)
          (codecLibName (lastSegment tn)) (8 * num + 2))) := by
  constructor
  · intro nm num ty lab tyn oi ti hlab hty hti h1 h2
    have hw := wireType_bounds hti
    have htag : fieldTag num ti.wireType = 8 * num + ti.wireType :=
      fieldTag_eval (by omega) h2 hw.1 hw.2
    have hbeq : (ty == 11) = false := by simp [hty]
    simp only [genFieldDecode, genRepeatedDecode, isRepeated, isMessage, hti,
      hlab, hbeq, Option.isSome, resolveSolType_of_some tyn hti (Or.inl hty),
      except_bind_ok, except_pure_eq, specRepeatedDecodeScalar,
      Bool.false_eq_true, if_true, if_false]
    rw [htag]
  · intro nm num lab oi tn hlab htn h1 h2
    have htag : fieldTag num WireLengthDelimited = 8 * num + 2 :=
      fieldTag_eval (by omega) h2 (by norm_num [WireLengthDelimited])
        (by norm_num [WireLengthDelimited])
    simp only [genFieldDecode, genRepeatedDecode, isRepeated, isMessage,
      PROTO_TYPE_MAP, hlab, Option.isSome, resolveSolType_message htn,
      lastSegment_stripLeadingDot, except_bind_ok, except_pure_eq,
      specRepeatedDecodeMsg, codecLibName, beq_self_eq_true,
      Bool.false_eq_true, if_true, if_false]
    rw [htag]

/-- C7 witness: the two clauses at concrete repeated fields. -/
theorem genRepeatedDecode_appends_witness :
    genFieldDecode { name := "tag_ids", number := 4, type := 13,
                     typeName := none, label := 3, oneofIndex := none,
                     mapEntry := none } =
        .ok (specRepeatedDecodeScalar (snakeToCamel "tag_ids")
          { solType := "uint32", wireType := WireVarint,
            encodeFunc := "_encode_varint", decodeFunc := "_decode_varint",
            defaultValue := "0" } (8 * 4 + WireVarint)) ∧
      genFieldDecode { name := "entries", number := 6, type := 11,
                       typeName := some ".pkg.Entry", label := 3,
                       oneofIndex := none, mapEntry := none } =
        .ok (specRepeatedDecodeMsg (snakeToCamel "entries")
          (codecLibName (lastSegment ".pkg.Entry")) (8 * 6 + 2)) :=
  ⟨genRepeatedDecode_appends.1 "tag_ids" 4 13 3 none none _ rfl (by decide) rfl
      (by norm_num) (by norm_num),
    genRepeatedDecode_appends.2 "entries" 6 3 none ".pkg.Entry" rfl (by decide)
      (by norm_num) (by norm_num)⟩

/-! Claim C4. -/

/-- Spec-side template for encoding a map field with scalar value type:
iterate the parallel key/value sequences by index; per index build one entry
sub-message — key tagged 8·1 + keyWire (field number 1), then value tagged
8·2 + valueWire (field number 2) — and write it under the outer field's tag
8·n + 2 (wire category always length-delimited), preceded by its varint
length. -/
def specMapEncodeScalarVal (solName : String) (ki vi : SolTypeInfo) (n : Int) : String :=
  let loopVar := "_i_" ++ solName
  String.intercalate "\n" [
    "    for (uint256 " ++ loopVar ++ " = 0; " ++ loopVar ++ " < msg." ++ solName
      ++ "_keys.length; " ++ loopVar ++ "++) \x7b",
    "      bytes memory _entry = \"\";",
    "      _entry = abi.encodePacked(_entry, ProtobufRuntime._encode_key("
      ++ toString (8 + ki.wireType) ++ "));",
    "      _entry = abi.encodePacked(_entry, ProtobufRuntime." ++ ki.encodeFunc
      ++ "(msg." ++ solName ++ "_keys[" ++ loopVar ++ "]));",
    "      _entry = abi.encodePacked(_entry, ProtobufRuntime._encode_key("
      ++ toString (16 + vi.wireType) ++ "));",
    "      _entry = abi.encodePacked(_entry, ProtobufRuntime." ++ vi.encodeFunc
      ++ "(msg." ++ solName ++ "_values[" ++ loopVar ++ "]));",
    "      buf = abi.encodePacked(buf, ProtobufRuntime._encode_key("
      ++ ("0x" ++ intToHex (8 * n + 2)) ++ "));",
    "      buf = abi.encodePacked(buf, ProtobufRuntime._encode_varint(uint64(_entry.length)));",
    "      buf = abi.encodePacked(buf, _entry);",
    "    \x7d"]

/-- Spec-side template for encoding a map field with message value type:
as in the scalar template, but the value — tagged 8·2 + 2 = 18 — is produced
by the referenced type's codec and written length-delimited inside the
entry. -/
def specMapEncodeMsgVal (solName : String) (ki : SolTypeInfo)
    (nestedCodec : String) (n : Int) : String :=
  let loopVar := "_i_" ++ solName
  String.intercalate "\n" [
    "    for (uint256 " ++ loopVar ++ " = 0; " ++ loopVar ++ " < msg." ++ solName
      ++ "_keys.length; " ++ loopVar ++ "++) \x7b",
    "      bytes memory _entry = \"\";",
    "      _entry = abi.encodePacked(_entry, ProtobufRuntime._encode_key("
      ++ toString (8 + ki.wireType) ++ "));",
    "      _entry = abi.encodePacked(_entry, ProtobufRuntime." ++ ki.encodeFunc
      ++ "(msg." ++ solName ++ "_keys[" ++ loopVar ++ "]));",
    "      bytes memory _val = " ++ nestedCodec ++ ".encode(msg." ++ solName
      ++ "_values[" ++ loopVar ++ "]);",
    "      _entry = abi.encodePacked(_entry, ProtobufRuntime._encode_key("
      ++ toString (8 * 2 + 2 : Int) ++ "));",
    "      _entry = abi.encodePacked(_entry, ProtobufRuntime._encode_varint(uint64(_val.length)));",
    "      _entry = abi.encodePacked(_entry, _val);",
    "      buf = abi.encodePacked(buf, ProtobufRuntime._encode_key("
      ++ ("0x" ++ intToHex (8 * n + 2)) ++ "));",
    "      buf = abi.encodePacked(buf, ProtobufRuntime._encode_varint(uint64(_entry.length)));",
    "      buf = abi.encodePacked(buf, _entry);",
    "    \x7d"]

/-- C4: for every map field, the generated encode iterates the parallel
key/value sequences by index, builds per index one entry sub-message with
the key tagged with field number 1 (under the key type's wire category) then
the value tagged with field number 2, and writes the entry length-delimited
(varint length prefix) under the outer field's tag, whose wire category is
always 2 (length-delimited) — for scalar value types (first clause) and
message value types (second clause). -/
theorem genMapEncode_entry_layout :
    (∀ (nm : String) (num : Int) (ty lab kt vt : Nat) (tyn : Option String)
        (oi : Option Int) (vtn : Option String) (fi ki vi : SolTypeInfo),
      PROTO_TYPE_MAP ty = some fi → PROTO_TYPE_MAP kt = some ki →
      vt ≠ 11 → PROTO_TYPE_MAP vt = some vi → 1 ≤ num → num < 268435456 →
      genFieldEncode { name := nm, number := num, type := ty, typeName := tyn,
                       label := lab, oneofIndex := oi,
                       mapEntry := some ⟨kt, vt, vtn⟩ } =
        .ok (specMapEncodeScalarVal (snakeToCamel nm) ki vi num)) ∧
    (∀ (nm : String) (num : Int) (ty lab kt : Nat) (tyn : Option String)
        (oi : Option Int) (vtn : String) (fi ki : SolTypeInfo),
      PROTO_TYPE_MAP ty = some fi → PROTO_TYPE_MAP kt = some ki →
      vtn ≠ "" → 1 ≤ num → num < 268435456 →
      genFieldEncode { name := nm, number := num, type := ty, typeName := tyn,
                       label := lab, oneofIndex := oi,
                       mapEntry := some ⟨kt, 11, some vtn⟩ } =
        .ok (specMapEncodeMsgVal (snakeToCamel nm) ki
          (codecLibName (lastSegment vtn)) num)) := by
  constructor
  · intro nm num ty lab kt vt tyn oi vtn fi ki vi hf hk hv11 hv h1 h2
    have hwk := wireType_bounds hk
    have hwv := wireType_bounds hv
    have htago : fieldTag num WireLengthDelimited = 8 * num + 2 :=
      fieldTag_eval (by omega) h2 (by norm_num [WireLengthDelimited])
        (by norm_num [WireLengthDelimited])
    have htagk : fieldTag 1 ki.wireType = 8 + ki.wireType := by
      have h := fieldTag_eval (n := 1) (by norm_num) (by norm_num) hwk.1 hwk.2
      omega
    have htagv : fieldTag 2 vi.wireType = 16 + vi.wireType := by
      have h := fieldTag_eval (n := 2) (by norm_num) (by norm_num) hwv.1 hwv.2
      omega
    have hv11b : (vt == 11) = false := by simp [hv11]
    simp only [genFieldEncode, genMapEncode, Option.isSome, hf, hk, hv, hv11b,
      except_bind_ok, except_pure_eq, specMapEncodeScalarVal,
      Bool.false_eq_true, if_true, if_false, List.cons_append, List.nil_append]
    rw [htagk, htagv, htago]
  · intro nm num ty lab kt tyn oi vtn fi ki hf hk hvtn h1 h2
    have hwk := wireType_bounds hk
    have htago : fieldTag num WireLengthDelimited = 8 * num + 2 :=
      fieldTag_eval (by omega) h2 (by norm_num [WireLengthDelimited])
        (by norm_num [WireLengthDelimited])
    have htagk : fieldTag 1 ki.wireType = 8 + ki.wireType := by
      have h := fieldTag_eval (n := 1) (by norm_num) (by norm_num) hwk.1 hwk.2
      omega
    have htagv : fieldTag 2 WireLengthDelimited = 8 * 2 + 2 := by decide
    simp only [genFieldEncode, genMapEncode, Option.isSome, hf, hk,
      resolveSolType_message hvtn, lastSegment_stripLeadingDot,
      except_bind_ok, except_pure_eq, specMapEncodeMsgVal, codecLibName,
      beq_self_eq_true, Bool.false_eq_true, if_true, if_false,
      List.cons_append, List.nil_append]
    rw [htagk, htagv, htago]

/-- C4 witness: the two clauses at concrete map fields
(`map<int32, string>` and `map<uint32, Msg>`). -/
theorem genMapEncode_entry_layout_witness :
    genFieldEncode { name := "labels", number := 3, type := 11,
                     typeName := some ".pkg.M.LabelsEntry", label := 3,
                     oneofIndex := none, mapEntry := some ⟨5, 9, none⟩ } =
        .ok (specMapEncodeScalarVal (snakeToCamel "labels")
          { solType := "int32", wireType := WireVarint,
            encodeFunc := "_encode_varint", decodeFunc := "_decode_varint",
            defaultValue := "0" }
          { solType := "string", wireType := WireLengthDelimited,
            encodeFunc := "_encode_string", decodeFunc := "_decode_string",
            defaultValue := "\"\"" } 3) ∧
      genFieldEncode { name := "items", number := 9, type := 11,
                       typeName := some ".pkg.M.ItemsEntry", label := 3,
                       oneofIndex := none,
                       mapEntry := some ⟨13, 11, some ".pkg.Item"⟩ } =
        .ok (specMapEncodeMsgVal (snakeToCamel "items")
          { solType := "uint32", wireType := WireVarint,
            encodeFunc := "_encode_varint", decodeFunc := "_decode_varint",
            defaultValue := "0" }
          (codecLibName (lastSegment ".pkg.Item")) 9) :=
  ⟨genMapEncode_entry_layout.1 "labels" 3 11 3 5 9 (some ".pkg.M.LabelsEntry")
      none none _ _ _ rfl rfl (by decide) rfl (by norm_num) (by norm_num),
    genMapEncode_entry_layout.2 "items" 9 11 3 13 (some ".pkg.M.ItemsEntry")
      none ".pkg.Item" _ _ rfl rfl (by decide) (by norm_num) (by norm_num)⟩

/-! Claim C5. -/

/-- Spec-side template for the decode case of a map field with scalar value
type: read the entry's varint length, run a nested tag-dispatch loop bounded
by that length recognizing exactly the key tag 8·1 + keyWire and the value
tag 8·2 + valueWire, revert on any other tag, and — after the loop — append
`_key`/`_val` (zero-initialized declarations, so an absent sub-tag leaves
the zero value) to the parallel key/value sequences. -/
def specMapDecodeScalarVal (solName : String) (ki vi : SolTypeInfo) (n : Int) : String :=
  String.intercalate "\n" [
    "        case " ++ toString (8 * n + 2) ++ ":",
    "          \x7b",
    "            uint64 _entryLen;",
    "            (_entryLen, pos) = ProtobufRuntime._decode_varint(data, pos);",
    "            uint256 _entryEnd = pos + uint256(_entryLen);",
    "            " ++ ki.solType ++ " _key;",
    "            " ++ vi.solType ++ " _val;",
    "            while (pos < _entryEnd) \x7b",
    "              uint64 _entryTag;",
    "              (_entryTag, pos) = ProtobufRuntime._decode_key(data, pos);",
    "              if (_entryTag == " ++ toString (8 + ki.wireType) ++ ") \x7b",
    "                (_key, pos) = ProtobufRuntime." ++ ki.decodeFunc ++ "(data, pos);",
    "              \x7d else if (_entryTag == " ++ toString (16 + vi.wireType)
      ++ ") \x7b",
    "                (_val, pos) = ProtobufRuntime." ++ vi.decodeFunc ++ "(data, pos);",
    "              \x7d else \x7b",
    "                revert(\"Unknown map entry tag\");",
    "              \x7d",
    "            \x7d",
    "            msg." ++ solName ++ "_keys.push(_key);",
    "            msg." ++ solName ++ "_values.push(_val);",
    "          \x7d",
    "          break;"]

/-- Spec-side template for the decode case of a map field with message value
type: as in the scalar template, but the value tag is 8·2 + 2 = 18 and the
value is decoded length-delimited through the referenced type's codec. -/
def specMapDecodeMsgVal (solName : String) (ki : SolTypeInfo) (valSol : String)
    (n : Int) : String :=
  String.intercalate "\n" [
    "        case " ++ toString (8 * n + 2) ++ ":",
    "          \x7b",
    "            uint64 _entryLen;",
    "            (_entryLen, pos) = ProtobufRuntime._decode_varint(data, pos);",
    "            uint256 _entryEnd = pos + uint256(_entryLen);",
    "            " ++ ki.solType ++ " _key;",
    "            " ++ valSol ++ " _val;",
    "            while (pos < _entryEnd) \x7b",
    "              uint64 _entryTag;",
    "              (_entryTag, pos) = ProtobufRuntime._decode_key(data, pos);",
    "              if (_entryTag == " ++ toString (8 + ki.wireType) ++ ") \x7b",
    "                (_key, pos) = ProtobufRuntime." ++ ki.decodeFunc ++ "(data, pos);",
    "              \x7d else if (_entryTag == " ++ toString (8 * 2 + 2 : Int)
      ++ ") \x7b",
    "                uint64 _vLen;",
    "                (_vLen, pos) = ProtobufRuntime._decode_varint(data, pos);",
    "                bytes memory _vSub = ProtobufRuntime._slice(data, pos, pos + uint256(_vLen));",
    "                _val = " ++ codecLibName valSol ++ ".decode(_vSub);",
    "                pos += uint256(_vLen);",
    "              \x7d else \x7b",
    "                revert(\"Unknown map entry tag\");",
    "              \x7d",
    "            \x7d",
    "            msg." ++ solName ++ "_keys.push(_key);",
    "            msg." ++ solName ++ "_values.push(_val);",
    "          \x7d",
    "          break;"]

/-- C5: for every map field, the generated decode case reads the entry
length and runs a nested tag-dispatch loop bounded by it, recognizing only
the entry tags for field 1 (key) and field 2 (value); any other tag reverts,
and since `_key`/`_val` are zero-initialized declarations consumed by
unconditional pushes after the loop, an absent key or value tag leaves its
slot at the target type's zero value while the entry is still appended —
for scalar value types (first clause) and message value types (second
clause). -/
theorem genMapDecode_entry_dispatch :
    (∀ (nm : String) (num : Int) (ty lab kt vt : Nat) (tyn : Option String)
        (oi : Option Int) (vtn : Option String) (fi ki vi : SolTypeInfo),
      PROTO_TYPE_MAP ty = some fi → PROTO_TYPE_MAP kt = some ki →
      vt ≠ 11 → PROTO_TYPE_MAP vt = some vi → 1 ≤ num → num < 268435456 →
      genFieldDecode { name := nm, number := num, type := ty, typeName := tyn,
                       label := lab, oneofIndex := oi,
                       mapEntry := some ⟨kt, vt, vtn⟩ } =
        .ok (specMapDecodeScalarVal (snakeToCamel nm) ki vi num)) ∧
    (∀ (nm : String) (num : Int) (ty lab kt : Nat) (tyn : Option String)
        (oi : Option Int) (vtn : String) (fi ki : SolTypeInfo),
      PROTO_TYPE_MAP ty = some fi → PROTO_TYPE_MAP kt = some ki →
      vtn ≠ "" → 1 ≤ num → num < 268435456 →
      genFieldDecode { name := nm, number := num, type := ty, typeName := tyn,
                       label := lab, oneofIndex := oi,
                       mapEntry := some ⟨kt, 11, some vtn⟩ } =
        .ok (specMapDecodeMsgVal (snakeToCamel nm) ki (lastSegment vtn) num)) := by
  constructor
  · intro nm num ty lab kt vt tyn oi vtn fi ki vi hf hk hv11 hv h1 h2
    have hwk := wireType_bounds hk
    have hwv := wireType_bounds hv
    have htago : fieldTag num WireLengthDelimited = 8 * num + 2 :=
      fieldTag_eval (by omega) h2 (by norm_num [WireLengthDelimited])
        (by norm_num [WireLengthDelimited])
    have htagk : fieldTag 1 ki.wireType = 8 + ki.wireType := by
      have h := fieldTag_eval (n := 1) (by norm_num) (by norm_num) hwk.1 hwk.2
      omega
    have htagv : fieldTag 2 vi.wireType = 16 + vi.wireType := by
      have h := fieldTag_eval (n := 2) (by norm_num) (by norm_num) hwv.1 hwv.2
      omega
    have hv11b : (vt == 11) = false := by simp [hv11]
    simp only [genFieldDecode, genMapDecode, Option.isSome, hf, hk, hv, hv11b,
      resolveSolType_of_some (none : Option String) hk (Or.inr rfl),
      resolveSolType_of_some vtn hv (Or.inl hv11),
      except_bind_ok, except_pure_eq, specMapDecodeScalarVal,
      Bool.false_eq_true, if_true, if_false, List.cons_append, List.nil_append]
    rw [htagk, htagv, htago]
  · intro nm num ty lab kt tyn oi vtn fi ki hf hk hvtn h1 h2
    have hwk := wireType_bounds hk
    have htago : fieldTag num WireLengthDelimited = 8 * num + 2 :=
      fieldTag_eval (by omega) h2 (by norm_num [WireLengthDelimited])
        (by norm_num [WireLengthDelimited])
    have htagk : fieldTag 1 ki.wireType = 8 + ki.wireType := by
      have h := fieldTag_eval (n := 1) (by norm_num) (by norm_num) hwk.1 hwk.2
      omega
    have htagv : fieldTag 2 WireLengthDelimited = 8 * 2 + 2 := by decide
    simp only [genFieldDecode, genMapDecode, Option.isSome, hf, hk,
      resolveSolType_of_some (none : Option String) hk (Or.inr rfl),
      resolveSolType_message hvtn, lastSegment_stripLeadingDot,
      except_bind_ok, except_pure_eq, specMapDecodeMsgVal, codecLibName,
      beq_self_eq_true, Bool.false_eq_true, if_true, if_false,
      List.cons_append, List.nil_append]
    rw [htagk, htagv, htago]

/-- C5 witness: the two clauses at concrete map fields. -/
theorem genMapDecode_entry_dispatch_witness :
    genFieldDecode { name := "labels", number := 3, type := 11,
                     typeName := some ".pkg.M.LabelsEntry", label := 3,
                     oneofIndex := none, mapEntry := some ⟨5, 9, none⟩ } =
        .ok (specMapDecodeScalarVal (snakeToCamel "labels")
          { solType := "int32", wireType := WireVarint,
            encodeFunc := "_encode_varint", decodeFunc := "_decode_varint",
            defaultValue := "0" }
          { solType := "string", wireType := WireLengthDelimited,
            encodeFunc := "_encode_string", decodeFunc := "_decode_string",
            defaultValue := "\"\"" } 3) ∧
      genFieldDecode { name := "items", number := 9, type := 11,
                       typeName := some ".pkg.M.ItemsEntry", label := 3,
                       oneofIndex := none,
                       mapEntry := some ⟨13, 11, some ".pkg.Item"⟩ } =
        .ok (specMapDecodeMsgVal (snakeToCamel "items")
          { solType := "uint32", wireType := WireVarint,
            encodeFunc := "_encode_varint", decodeFunc := "_decode_varint",
            defaultValue := "0" }
          (lastSegment ".pkg.Item") 9) :=
  ⟨genMapDecode_entry_dispatch.1 "labels" 3 11 3 5 9 (some ".pkg.M.LabelsEntry")
      none none _ _ _ rfl rfl (by decide) rfl (by norm_num) (by norm_num),
    genMapDecode_entry_dispatch.2 "items" 9 11 3 13 (some ".pkg.M.ItemsEntry")
      none ".pkg.Item" _ _ rfl rfl (by decide) (by norm_num) (by norm_num)⟩

/-! Claim C8. -/

/-- The accumulation loop of `processRequest` either returns every
accumulated file — the starting files followed by all successfully generated
ones, in order — or propagates the first exception, discarding the
accumulator entirely. -/
theorem genLoop_spec (l : List (Option (Except String GenFile))) :
    ∀ acc, genLoop acc l =
      match firstError l with
      | some e => .error e
      | none => .ok (acc ++ okFiles l) := by
  induction l with
  | nil =>
    intro acc
    simp [genLoop, firstError, okFiles]
  | cons hd rest ih =>
    intro acc
    cases hd with
    | none =>
      simp only [genLoop, firstError, okFiles]
      exact ih acc
    | some x =>
      cases x with
      | ok f =>
        simp only [genLoop, firstError, okFiles]
        rw [ih (acc ++ [f])]
        cases firstError rest <;> simp
      | error e =>
        simp only [genLoop, firstError, okFiles]

/-- C8: the plugin boundary converts any exception thrown during request
processing into a single run-level result carrying the error message and an
empty file list; otherwise the caller receives the complete output set —
the runtime file followed by every generated file, with no error — never a
partial one. -/
theorem runPlugin_output_or_error (runtime : GenFile)
    (perFile : List (Option (Except String GenFile))) :
    runPlugin runtime perFile =
      match firstError perFile with
      | some e => { files := [], error := some e }
      | none => { files := runtime :: okFiles perFile, error := none } := by
  unfold runPlugin processRequest
  rw [genLoop_spec perFile [runtime]]
  cases hfe : firstError perFile <;>
    simp [except_bind_ok, except_bind_error, except_pure_eq]

end ProtocGenSol
